import Mathlib

/-!
Verification of the smart-grid telemetry server (private-fdi-detection-experiments).

Shallow embedding notes:
* C++ `double` values (power, voltage, current, ...) are modelled as exact
  rationals (`ℚ`); the spec reasons about exact arithmetic sums and scaling.
* C++ `size_t` counters are modelled as `ℕ`.
* Stateful classes become explicit state records; each C++ member function
  becomes a Lean function from state to state (plus observable outputs).
  A critical section in the source corresponds to one atomic step here.
* `std::vector<uint8_t>::operator[]` performs no bounds check; an access past
  the end is undefined behaviour.  The embedding reads bytes through an
  `Except` so that such an access surfaces as a distinguished `oobRead`
  outcome instead of silently producing a value.
* Fallible C++ code (`throw`) is modelled with `Except` / outcome types.
-/

/-- Structure `MeterReading` from `src/common/protocol.hpp` (and the struct of the same
name in `src/main.cpp`).  Doubles are modelled as rationals. -/
structure MeterReading where
  device_id : String
  timestamp : ℚ
  voltage : ℚ
  current : ℚ
  power : ℚ
  frequency : ℚ
deriving DecidableEq, Repr

/-- State of `PowerSumProcessor` (`src/server/power_processor.hpp`):
target window size, buffered power values, running count, total windows
summed so far, and the benchmark-callback configuration (the C++
`std::function` callback is modelled by a flag saying whether one is set;
`add_reading` reports whether it would have been invoked). -/
structure PState where
  target_count : ℕ
  power_readings : List ℚ
  current_count : ℕ
  total_sums : ℕ
  benchmark_sum_target : ℕ
  has_callback : Bool
deriving DecidableEq, Repr

/-- Constructor `PowerSumProcessor::PowerSumProcessor(size_t count)`
(`src/server/power_processor.cpp` lines 7-10). -/
def PowerSumProcessor.init (count : ℕ) : PState :=
  { target_count := count
    power_readings := []
    current_count := 0
    total_sums := 0
    benchmark_sum_target := 0
    has_callback := false }

/-- Member `PowerSumProcessor::set_benchmark_target`
(`src/server/power_processor.cpp` lines 12-17). -/
def set_benchmark_target (s : PState) (target_sums : ℕ) : PState :=
  { s with benchmark_sum_target := target_sums, has_callback := true }

/-- Observable result of one `add_reading` call: the `bool` return value
(window closed), whether the benchmark completion callback was invoked
inside the critical section, and the emitted window sum when closed. -/
structure AddResult where
  closed : Bool
  fire_callback : Bool
  emitted : Option ℚ
deriving DecidableEq, Repr

/-- Member `PowerSumProcessor::add_reading(double power)`
(`src/server/power_processor.cpp` lines 19-49).  The whole body runs under
`readings_mutex`, so it is one atomic step of the model. -/
def add_reading (s : PState) (power : ℚ) : AddResult × PState :=
  let readings := s.power_readings ++ [power]
  let count := s.current_count + 1
  if s.target_count ≤ count then
    let sum := readings.sum
    let total := s.total_sums + 1
    let fire := decide (0 < s.benchmark_sum_target ∧
                        s.benchmark_sum_target ≤ total ∧ s.has_callback = true)
    (⟨true, fire, some sum⟩,
     { s with power_readings := [], current_count := 0, total_sums := total })
  else
    (⟨false, false, none⟩,
     { s with power_readings := readings, current_count := count })

/-- Iterate `add_reading` over a list of power values, collecting the
emitted window sums in order. -/
def runReadings (s : PState) : List ℚ → PState × List ℚ
  | [] => (s, [])
  | p :: ps =>
    let step := add_reading s p
    let rest := runReadings step.2 ps
    (rest.1, match step.1.emitted with
             | some v => v :: rest.2
             | none => rest.2)

/-- Helper for `chunksExact`, structurally recursive on a fuel argument so
that the kernel can evaluate it on concrete inputs. -/
def chunksExactGo (W : ℕ) : ℕ → List ℚ → List (List ℚ)
  | 0, _ => []
  | fuel + 1, ps =>
    if 1 ≤ W ∧ W ≤ ps.length then
      ps.take W :: chunksExactGo W fuel (ps.drop W)
    else
      []

/-- Spec-side view of windowing: the consecutive complete chunks of size `W`
of a list (trailing partial chunk dropped). -/
def chunksExact (W : ℕ) (ps : List ℚ) : List (List ℚ) :=
  chunksExactGo W ps.length ps

/-- Configuration default from `src/server/main.cpp` lines 71-73: the
aggregation window size defaults to the expected device count when the
`--sum-interval` option is unset. -/
def resolve_sum_interval (sum_interval expected_devices : ℕ) : ℕ :=
  if sum_interval = 0 then expected_devices else sum_interval

/-- Error outcomes of the binary decode step.  `sizeError` models the thrown
`std::runtime_error` on a too-short input; `oobRead` marks an out-of-bounds
`std::vector::operator[]` access (undefined behaviour in the source, made
observable here). -/
inductive ParseError
  | sizeError
  | oobRead
deriving DecidableEq, Repr

/-- Checked byte access standing for `data[i]` on `std::vector<uint8_t>`. -/
def byteAt (data : List ℕ) (i : ℕ) : Except ParseError ℕ :=
  match data.get? i with
  | some b => .ok b
  | none => .error .oobRead

/-- Member `SmartGridServer::parse_binary_reading` from `src/server/server.cpp`
lines 185-207: size guard `data.size() < 11`, then big-endian fields
timestamp(4) device_num(2) voltage(2) current(2) power(2) frequency(1);
voltage ÷ 10, current ÷ 100 ("centiamps" per its comment), power and
frequency unscaled; `device_id` left default (the caller overwrites it with
the connection header's id). -/
def parse_binary_reading_server (data : List ℕ) : Except ParseError MeterReading :=
  if data.length < 11 then .error .sizeError
  else do
    let b0 ← byteAt data 0
    let b1 ← byteAt data 1
    let b2 ← byteAt data 2
    let b3 ← byteAt data 3
    let b4 ← byteAt data 4
    let b5 ← byteAt data 5
    let b6 ← byteAt data 6
    let b7 ← byteAt data 7
    let b8 ← byteAt data 8
    let b9 ← byteAt data 9
    let b10 ← byteAt data 10
    let b11 ← byteAt data 11
    let b12 ← byteAt data 12
    let timestamp : ℕ := b0 * 16777216 + b1 * 65536 + b2 * 256 + b3
    let _device_num : ℕ := b4 * 256 + b5
    let voltage : ℕ := b6 * 256 + b7
    let current : ℕ := b8 * 256 + b9
    let power : ℕ := b10 * 256 + b11
    let frequency : ℕ := b12
    .ok { device_id := ""
          timestamp := timestamp
          voltage := (voltage : ℚ) / 10
          current := (current : ℚ) / 100
          power := power
          frequency := frequency }

/-- Member `SmartGridServer::parse_binary_reading` from `src/main.cpp` lines
362-392: size guard `data.size() < 13`, same big-endian fields; voltage,
current and frequency all ÷ 10, `device_id` taken from the payload's
embedded device number. -/
def parse_binary_reading_main (data : List ℕ) : Except ParseError MeterReading :=
  if data.length < 13 then .error .sizeError
  else do
    let b0 ← byteAt data 0
    let b1 ← byteAt data 1
    let b2 ← byteAt data 2
    let b3 ← byteAt data 3
    let b4 ← byteAt data 4
    let b5 ← byteAt data 5
    let b6 ← byteAt data 6
    let b7 ← byteAt data 7
    let b8 ← byteAt data 8
    let b9 ← byteAt data 9
    let b10 ← byteAt data 10
    let b11 ← byteAt data 11
    let b12 ← byteAt data 12
    let timestamp : ℕ := b0 * 16777216 + b1 * 65536 + b2 * 256 + b3
    let device_num : ℕ := b4 * 256 + b5
    let voltage : ℕ := b6 * 256 + b7
    let current : ℕ := b8 * 256 + b9
    let power : ℕ := b10 * 256 + b11
    let frequency : ℕ := b12
    .ok { device_id := "meter_" ++ toString device_num
          timestamp := timestamp
          voltage := (voltage : ℚ) / 10
          current := (current : ℚ) / 10
          power := power
          frequency := (frequency : ℚ) / 10 }

/-- Outcome of one iteration of the `handle_client` message loop
(`src/server/server.cpp` lines 126-161). -/
inductive HandlerStep
  | closeConnection
  | skipMessage
  | processedOk
  | droppedLogged
  | uncaughtException
deriving DecidableEq, Repr

/-- Model of `header.find` plus the two `substr` calls: the text before the
first colon and the text after it, or `none` when no colon occurs. -/
def findColon : List Char → Option (List Char × List Char)
  | [] => none
  | c :: cs =>
    if c = ':' then some ([], cs)
    else
      match findColon cs with
      | some (pre, post) => some (c :: pre, post)
      | none => none

def parseDigits (l : List Char) : ℕ :=
  l.foldl (fun a c => a * 10 + (c.toNat - 48)) 0

/-- Model of `std::stoull`: skip leading spaces and an optional sign, then
require at least one digit — otherwise the call throws
`std::invalid_argument`, modelled as `none`.  (Only digit-presence and the
value of plain digit strings matter to the handler; 64-bit wrap-around of
huge or negative inputs is not modelled.) -/
def stoullModel (s : List Char) : Option ℕ :=
  let l := s.dropWhile (fun c => c = ' ')
  let l2 := match l with
    | '+' :: r => r
    | '-' :: r => r
    | r => r
  match l2 with
  | [] => none
  | c :: _ => if c.isDigit then some (parseDigits (l2.takeWhile Char.isDigit)) else none

/-- One iteration of `SmartGridServer::handle_client`
(`src/server/server.cpp` lines 130-157) for a received header line.
`short_read` is true when `read_full` returns fewer than `data_length`
bytes; `decrypted` is the outcome of `AESManager::decrypt_data` (an
external OpenSSL computation, so it enters as a parameter: `.error` models
the `std::runtime_error` it throws).  Faithful control flow: an empty
header breaks the loop; a header with no colon hits `continue`; the
`std::stoull` call sits OUTSIDE the `try` block, so a non-numeric length
field throws out of the function; decrypt/parse failures are caught by the
`try`/`catch`, logged, and the loop continues. -/
def handle_client_message (header : String) (short_read : Bool)
    (decrypted : Except String (List ℕ)) : HandlerStep :=
  if header = "" then .closeConnection
  else
    match findColon header.toList with
    | none => .skipMessage
    | some (_device_id, len_str) =>
      match stoullModel len_str with
      | none => .uncaughtException
      | some _len =>
        if short_read then .closeConnection
        else
          match decrypted with
          | .error _ => .droppedLogged
          | .ok data =>
            match parse_binary_reading_server data with
            | .error _ => .droppedLogged
            | .ok _ => .processedOk

/-- Cache lookup standing for `device_keys.find(device_id)` on the
`std::unordered_map`; the map is modelled as an association list with the
newest insertion at the head. -/
def lookupKey : List (String × List ℕ) → String → Option (List ℕ)
  | [], _ => none
  | (k, v) :: rest, device_id =>
    if k = device_id then some v else lookupKey rest device_id

/-- Salt construction `std::string salt = device_id; salt.resize(16, '0');`
(`src/server/aes_manager.cpp` lines 33-34): right-pad with ASCII zero to
exactly 16 bytes, truncating when longer. -/
def saltOf (device_id : String) : String :=
  let l := device_id.toList
  String.mk (if 16 ≤ l.length then l.take 16 else l ++ List.replicate (16 - l.length) '0')

/-- The key `AESManager::get_or_generate_key` derives for a device:
`pbkdf2_sha256("smart_meter_" + device_id, salt, 100000, 32)`
(`src/server/aes_manager.cpp` lines 33-37; identical in `src/main.cpp`
lines 114-118).  The PBKDF2-HMAC-SHA-256 primitive itself is OpenSSL's
`PKCS5_PBKDF2_HMAC`, external to this repository, so it enters the model
as the function argument `kdf` (password, salt, iterations, key length). -/
def derivedKey (kdf : String → String → ℕ → ℕ → List ℕ) (device_id : String) : List ℕ :=
  kdf ("smart_meter_" ++ device_id) (saltOf device_id) 100000 32

/-- Member `AESManager::get_or_generate_key` (`src/server/aes_manager.cpp`
lines 18-41).  The shared-lock fast path and the double-checked re-lookup
after taking the exclusive lock collapse to one lookup in this sequential
model; the returned `Bool` records whether the derivation function was
invoked. -/
def get_or_generate_key (kdf : String → String → ℕ → ℕ → List ℕ)
    (cache : List (String × List ℕ)) (device_id : String) :
    List ℕ × List (String × List ℕ) × Bool :=
  match lookupKey cache device_id with
  | some k => (k, cache, false)
  | none =>
    let key := derivedKey kdf device_id
    (key, (device_id, key) :: cache, true)

/-- Run a sequence of key requests, logging for each which device was asked
and whether the derivation function was invoked. -/
def runKeyRequests (kdf : String → String → ℕ → ℕ → List ℕ) :
    List (String × List ℕ) → List String → List (String × List ℕ) × List (String × Bool)
  | c, [] => (c, [])
  | c, d :: ds =>
    let step := get_or_generate_key kdf c d
    let rest := runKeyRequests kdf step.2.1 ds
    (rest.1, (d, step.2.2) :: rest.2)

/-- Number of logged requests for `dev` that invoked the derivation. -/
def derivations_for (dev : String) (log : List (String × Bool)) : ℕ :=
  (log.filter (fun e => e.1 == dev && e.2)).length

/-- Every cached entry is the key this cache would derive for its id. -/
def cacheConsistent (kdf : String → String → ℕ → ℕ → List ℕ)
    (c : List (String × List ℕ)) : Prop :=
  ∀ p ∈ c, p.2 = derivedKey kdf p.1

/-- A concrete stand-in for the external PBKDF2 primitive, used only to
instantiate witnesses. -/
def kdfTest (password salt : String) (iterations key_length : ℕ) : List ℕ :=
  [password.length, salt.length, iterations, key_length]

/-- One row of the CSV metrics sink (`src/server/server.cpp` lines
276-288).  The wall-clock timestamp column comes from the external clock
and carries no server state, so it is not modelled. -/
structure MetricsRecord where
  device_count : ℕ
  thread_count : ℕ
  benchmark_target : ℕ
  benchmark_sum_target : ℕ
  total_readings : ℕ
  total_sums : ℕ
  seconds : ℚ
  throughput_rps : ℚ
deriving DecidableEq, Repr

/-- State of `SmartGridServer` (`src/server/server.hpp`) as touched by
`process_reading` / `finalize_benchmark`: configuration fields, the atomic
counters and flags, the aggregator, and the metrics sink (the CSV file
modelled as the list of appended records).  `finalized` is the
function-local `static std::atomic<bool> finalized` of
`finalize_benchmark`; time points are rationals. -/
structure SrvState where
  expected_devices : ℕ
  thread_count : ℕ
  benchmark_target : ℕ
  benchmark_sum_target : ℕ
  metrics_file : String
  total_readings : ℕ
  started : Bool
  first_read_time : ℚ
  done : Bool
  finalized : Bool
  proc : PState
  sink : List MetricsRecord
deriving DecidableEq, Repr

/-- The `SmartGridServer` constructor (`src/server/server.cpp` lines
18-50): fresh counters and flags, a `PowerSumProcessor(sum_interval)`, and
— only when `benchmark_sum_target > 0` — the window-count completion
callback registered on the processor via `set_benchmark_target`. -/
def SmartGridServer.init (devices sum_interval bench_target bench_sum_target : ℕ)
    (metrics : String) (threads : ℕ) : SrvState :=
  { expected_devices := devices
    thread_count := threads
    benchmark_target := bench_target
    benchmark_sum_target := bench_sum_target
    metrics_file := metrics
    total_readings := 0
    started := false
    first_read_time := 0
    done := false
    finalized := false
    proc := if 0 < bench_sum_target then
        set_benchmark_target (PowerSumProcessor.init sum_interval) bench_sum_target
      else
        PowerSumProcessor.init sum_interval
    sink := [] }

/-- Member `SmartGridServer::finalize_benchmark(double seconds)`
(`src/server/server.cpp` lines 249-294): first the static atomic
`finalized.exchange(true)` gate, then the `done.exchange(true)` gate, then
throughput computation and the append of one CSV row when a metrics file
is configured. -/
def finalize_benchmark (seconds : ℚ) (s : SrvState) : SrvState :=
  if s.finalized then s
  else
    let s1 := { s with finalized := true }
    if s1.done then s1
    else
      let s2 := { s1 with done := true }
      let throughput := if 0 < seconds then (s2.total_readings : ℚ) / seconds else 0
      if s2.metrics_file = "" then s2
      else
        { s2 with sink := s2.sink ++
            [{ device_count := s2.expected_devices
               thread_count := s2.thread_count
               benchmark_target := s2.benchmark_target
               benchmark_sum_target := s2.benchmark_sum_target
               total_readings := s2.total_readings
               total_sums := s2.proc.total_sums
               seconds := seconds
               throughput_rps := throughput }] }

/-- Member `SmartGridServer::process_reading` (`src/server/server.cpp` lines
209-247): latch the benchmark clock origin on the first reading, feed the
power into the aggregator (whose registered callback runs
`finalize_benchmark` with the elapsed time), bump the total-readings
counter, and finally the legacy reading-count benchmark branch, which is
guarded by `benchmark_sum_target == 0`.  Logging and the anomaly alert
write no state. -/
def process_reading (now : ℚ) (r : MeterReading) (s : SrvState) : SrvState :=
  let sA := if s.started = false then { s with started := true, first_read_time := now } else s
  let step := add_reading sA.proc r.power
  let sB := { sA with proc := step.2 }
  let sC := if step.1.fire_callback then
      finalize_benchmark (now - sB.first_read_time) sB
    else sB
  let total := sC.total_readings + 1
  let sD := { sC with total_readings := total }
  if 0 < sD.benchmark_target ∧ sD.benchmark_sum_target = 0 ∧
      sD.benchmark_target ≤ total ∧ sD.done = false then
    finalize_benchmark (now - sD.first_read_time) sD
  else sD

/-- A well-formed decoded reading used for concrete server scenarios. -/
def readingTest : MeterReading :=
  { device_id := "meter_1", timestamp := 0, voltage := 120, current := 1,
    power := 100, frequency := 50 }

/-- The part of `process_reading` after the first-reading latch
(`src/server/server.cpp` lines 217-246), split out so the remaining
control flow can be stated for an arbitrary post-latch state. -/
def processCore (now : ℚ) (r : MeterReading) (t : SrvState) : SrvState :=
  let step := add_reading t.proc r.power
  let sB := { t with proc := step.2 }
  let sC := if step.1.fire_callback then
      finalize_benchmark (now - sB.first_read_time) sB
    else sB
  let total := sC.total_readings + 1
  let sD := { sC with total_readings := total }
  if 0 < sD.benchmark_target ∧ sD.benchmark_sum_target = 0 ∧
      sD.benchmark_target ≤ total ∧ sD.done = false then
    finalize_benchmark (now - sD.first_read_time) sD
  else sD

theorem chunksExactGo_neg (W fuel : ℕ) (ps : List ℚ)
    (h : ¬ (1 ≤ W ∧ W ≤ ps.length)) : chunksExactGo W fuel ps = [] := by
  cases fuel with
  | zero => rfl
  | succ fuel => rw [chunksExactGo, if_neg h]

theorem chunksExactGo_fuel (W : ℕ) :
    ∀ fuel1 fuel2 (ps : List ℚ), ps.length ≤ fuel1 → ps.length ≤ fuel2 →
    chunksExactGo W fuel1 ps = chunksExactGo W fuel2 ps := by
  intro fuel1
  induction fuel1 with
  | zero =>
    intro fuel2 ps h1 h2
    have hnil : ps.length = 0 := by omega
    rw [chunksExactGo_neg W 0 ps (by omega), chunksExactGo_neg W fuel2 ps (by omega)]
  | succ fuel1 ih =>
    intro fuel2 ps h1 h2
    by_cases hc : 1 ≤ W ∧ W ≤ ps.length
    · cases fuel2 with
      | zero => omega
      | succ fuel2 =>
        rw [chunksExactGo, chunksExactGo, if_pos hc, if_pos hc]
        rw [ih fuel2 (ps.drop W) (by simp only [List.length_drop]; omega)
            (by simp only [List.length_drop]; omega)]
    · rw [chunksExactGo_neg W _ ps hc, chunksExactGo_neg W _ ps hc]

theorem chunksExact_of_short (W : ℕ) (ps : List ℚ) (h : ps.length < W) :
    chunksExact W ps = [] :=
  chunksExactGo_neg W ps.length ps (by omega)

theorem chunksExact_zero (ps : List ℚ) : chunksExact 0 ps = [] :=
  chunksExactGo_neg 0 ps.length ps (by omega)

theorem chunksExact_of_long (W : ℕ) (ps : List ℚ) (h1 : 1 ≤ W)
    (h2 : W ≤ ps.length) :
    chunksExact W ps = ps.take W :: chunksExact W (ps.drop W) := by
  unfold chunksExact
  obtain ⟨k, hk⟩ : ∃ k, ps.length = k + 1 := by
    refine ⟨ps.length - 1, ?_⟩; omega
  rw [hk, chunksExactGo, if_pos (And.intro h1 h2)]
  rw [chunksExactGo_fuel W k (ps.drop W).length (ps.drop W)
      (by simp only [List.length_drop]; omega) (le_refl _)]

/-- Full characterisation of iterating `add_reading`: starting from a
consistent state whose buffer is a strict partial window, the emitted sums
are exactly the sums of the complete `W`-chunks of (buffer ++ input), and
the final counters are given by division/remainder. -/
theorem runReadings_spec (W : ℕ) (hW : 1 ≤ W) :
    ∀ (ps : List ℚ) (s : PState),
    s.target_count = W →
    s.current_count = s.power_readings.length →
    s.power_readings.length < W →
    (runReadings s ps).2 = (chunksExact W (s.power_readings ++ ps)).map List.sum ∧
    (runReadings s ps).1.target_count = W ∧
    (runReadings s ps).1.current_count = (s.power_readings.length + ps.length) % W ∧
    (runReadings s ps).1.power_readings.length = (s.power_readings.length + ps.length) % W ∧
    (runReadings s ps).1.total_sums = s.total_sums + (s.power_readings.length + ps.length) / W ∧
    (runReadings s ps).1.benchmark_sum_target = s.benchmark_sum_target ∧
    (runReadings s ps).1.has_callback = s.has_callback := by
  intro ps
  induction ps with
  | nil =>
    intro s h1 h2 h3
    refine ⟨?_, ?_, ?_, ?_, ?_, ?_, ?_⟩ <;>
      simp only [runReadings, List.append_nil, List.length_nil, Nat.add_zero]
    · rw [chunksExact_of_short W _ h3]; rfl
    · exact h1
    · rw [Nat.mod_eq_of_lt h3]; exact h2
    · rw [Nat.mod_eq_of_lt h3]
    · rw [Nat.div_eq_of_lt h3]; omega
  | cons p ps ih =>
    intro s h1 h2 h3
    obtain ⟨tc, b, cc, ts, bt, hcb⟩ := s
    simp only at h1 h2 h3
    subst tc
    subst cc
    by_cases hb : W ≤ b.length + 1
    · have hbl : b.length + 1 = W := by omega
      have hlen : (b ++ [p]).length = W := by
        simp only [List.length_append, List.length_cons, List.length_nil]; omega
      simp only [runReadings, add_reading, if_pos hb]
      obtain ⟨ih1, ih2, ih3, ih4, ih5, ih6, ih7⟩ :=
        ih ⟨W, [], 0, ts + 1, bt, hcb⟩ rfl rfl (by simpa using hW)
      have hsplit : b ++ p :: ps = (b ++ [p]) ++ ps := by simp
      have harith : b.length + (p :: ps).length = ps.length + W := by
        simp only [List.length_cons]; omega
      have hchunk : chunksExact W (b ++ p :: ps) =
          (b ++ [p]) :: chunksExact W ps := by
        rw [hsplit, chunksExact_of_long W _ hW
          (by simp only [List.length_append, hlen]; omega)]
        rw [← hlen, List.take_left, List.drop_left, hlen]
      refine ⟨?_, ih2, ?_, ?_, ?_, ih6, ih7⟩
      · rw [hchunk, List.map_cons]
        simp only at ih1 ⊢
        rw [ih1]
        simp
      · have h3b : (runReadings ⟨W, [], 0, ts + 1, bt, hcb⟩ ps).1.current_count =
            ps.length % W := by simpa using ih3
        simp only [List.length_cons]
        rw [show b.length + (ps.length + 1) = ps.length + W from by omega,
            Nat.add_mod_right, h3b]
      · have h4b : (runReadings ⟨W, [], 0, ts + 1, bt, hcb⟩ ps).1.power_readings.length =
            ps.length % W := by simpa using ih4
        simp only [List.length_cons]
        rw [show b.length + (ps.length + 1) = ps.length + W from by omega,
            Nat.add_mod_right, h4b]
      · have h5b : (runReadings ⟨W, [], 0, ts + 1, bt, hcb⟩ ps).1.total_sums =
            ts + 1 + ps.length / W := by simpa using ih5
        simp only [List.length_cons]
        rw [show b.length + (ps.length + 1) = ps.length + W from by omega,
            Nat.add_div_right _ (by omega : 0 < W), h5b]
        omega
    · have hlt : b.length + 1 < W := by omega
      simp only [runReadings, add_reading, if_neg hb]
      obtain ⟨ih1, ih2, ih3, ih4, ih5, ih6, ih7⟩ :=
        ih ⟨W, b ++ [p], b.length + 1, ts, bt, hcb⟩ rfl
          (by simp) (by simpa using hlt)
      have hsplit : b ++ p :: ps = (b ++ [p]) ++ ps := by simp
      have harith : b.length + (p :: ps).length = (b ++ [p]).length + ps.length := by
        simp only [List.length_cons, List.length_append, List.length_nil]; omega
      refine ⟨?_, ih2, ?_, ?_, ?_, ih6, ih7⟩
      · rw [hsplit] at *
        simpa using ih1
      · rw [harith]
        simpa using ih3
      · rw [harith]
        simpa using ih4
      · rw [harith]
        simpa using ih5

theorem chunksExact_length (W : ℕ) (hW : 1 ≤ W) :
    ∀ (n : ℕ) (ps : List ℚ), ps.length ≤ n →
    (chunksExact W ps).length = ps.length / W := by
  intro n
  induction n with
  | zero =>
    intro ps hlen
    rw [chunksExact_of_short W ps (by omega)]
    rw [List.length_nil, Nat.div_eq_of_lt (by omega)]
  | succ n ihn =>
    intro ps hlen
    by_cases h : W ≤ ps.length
    · rw [chunksExact_of_long W ps hW h, List.length_cons,
          ihn (ps.drop W) (by simp only [List.length_drop]; omega),
          List.length_drop]
      rw [Nat.div_eq_sub_div (by omega) h]
    · rw [chunksExact_of_short W ps (by omega)]
      rw [List.length_nil, Nat.div_eq_of_lt (by omega)]

theorem chunksExact_chunk_length (W : ℕ) (hW : 1 ≤ W) :
    ∀ (n : ℕ) (ps : List ℚ), ps.length ≤ n →
    ∀ c ∈ chunksExact W ps, c.length = W := by
  intro n
  induction n with
  | zero =>
    intro ps hlen c hc
    rw [chunksExact_of_short W ps (by omega)] at hc
    exact absurd hc (List.not_mem_nil c)
  | succ n ihn =>
    intro ps hlen c hc
    by_cases h : W ≤ ps.length
    · rw [chunksExact_of_long W ps hW h] at hc
      rcases List.mem_cons.mp hc with hc1 | hc2
      · rw [hc1, List.length_take]
        omega
      · exact ihn (ps.drop W) (by simp only [List.length_drop]; omega) c hc2
    · rw [chunksExact_of_short W ps (by omega)] at hc
      exact absurd hc (List.not_mem_nil c)

/-- C2: for every window size `W ≥ 1` and every input sequence, a window
closes exactly every `W`-th `add_reading` call (so `n / W` windows for `n`
calls), each emitted sum is the arithmetic sum of the `W` buffered values
(the input split into consecutive chunks of `W`), the post-close buffer is
empty with count zero, and the total-windows counter equals the number of
closed windows. -/
theorem add_reading_window_behaviour (W : ℕ) (hW : 1 ≤ W) (ps : List ℚ) :
    (runReadings (PowerSumProcessor.init W) ps).2 =
      (chunksExact W ps).map List.sum ∧
    (runReadings (PowerSumProcessor.init W) ps).2.length = ps.length / W ∧
    (∀ c ∈ chunksExact W ps, c.length = W) ∧
    (runReadings (PowerSumProcessor.init W) ps).1.total_sums = ps.length / W ∧
    (runReadings (PowerSumProcessor.init W) ps).1.current_count = ps.length % W ∧
    (W ∣ ps.length → (runReadings (PowerSumProcessor.init W) ps).1.power_readings = []) := by
  obtain ⟨h1, h2, h3, h4, h5, h6, h7⟩ :=
    runReadings_spec W hW ps (PowerSumProcessor.init W) rfl rfl (by simpa using hW)
  have h1b : (runReadings (PowerSumProcessor.init W) ps).2 =
      (chunksExact W ps).map List.sum := by simpa using h1
  refine ⟨h1b, ?_, ?_, by simpa [PowerSumProcessor.init] using h5,
    by simpa [PowerSumProcessor.init] using h3, ?_⟩
  · rw [h1b, List.length_map, chunksExact_length W hW ps.length ps (le_refl _)]
  · exact chunksExact_chunk_length W hW ps.length ps (le_refl _)
  · intro hdvd
    have h4b : (runReadings (PowerSumProcessor.init W) ps).1.power_readings.length =
        ps.length % W := by simpa [PowerSumProcessor.init] using h4
    obtain ⟨k, hk⟩ := hdvd
    have hz : ps.length % W = 0 := by rw [hk, Nat.mul_mod_right]
    exact List.eq_nil_of_length_eq_zero (h4b.trans hz)

/-- Witness for C2: the spec's end-to-end scenario, window size 3 fed
`[100, 200, 300]`, via `add_reading_window_behaviour`. -/
theorem add_reading_window_behaviour_witness :
    (runReadings (PowerSumProcessor.init 3) [100, 200, 300]).2 = [600] ∧
    (runReadings (PowerSumProcessor.init 3) [100, 200, 300]).1.total_sums = 1 ∧
    (runReadings (PowerSumProcessor.init 3) [100, 200, 300]).1.current_count = 0 ∧
    (runReadings (PowerSumProcessor.init 3) [100, 200, 300]).1.power_readings = [] := by
  obtain ⟨h1, h2, h3, h4, h5, h6⟩ :=
    add_reading_window_behaviour 3 (by decide) [100, 200, 300]
  refine ⟨?_, ?_, ?_, ?_⟩
  · rw [h1]; norm_num [chunksExact, chunksExactGo]
  · exact h4.trans (by decide)
  · exact h5.trans (by decide)
  · exact h6 (by decide)

/-- Iterating `add_reading` with target window size zero: every call closes
immediately, emits the single buffered reading, and bumps the counter. -/
theorem runReadings_target_zero :
    ∀ (ps : List ℚ) (t bt : ℕ) (hc : Bool),
    runReadings ⟨0, [], 0, t, bt, hc⟩ ps =
      (⟨0, [], 0, t + ps.length, bt, hc⟩, ps) := by
  intro ps
  induction ps with
  | nil => intro t bt hc; simp [runReadings]
  | cons p ps ih =>
    intro t bt hc
    simp only [runReadings, add_reading]
    rw [if_pos (show (⟨0, [], 0, t, bt, hc⟩ : PState).target_count ≤
        (⟨0, [], 0, t, bt, hc⟩ : PState).current_count + 1 from Nat.zero_le _)]
    simp only [ih, List.length_cons, List.nil_append, List.sum_cons, List.sum_nil]
    simp only [Prod.mk.injEq, PState.mk.injEq]
    norm_num
    omega

/-- C9: in every `PowerSumProcessor` state reachable by a sequence of
`add_reading` calls the number of buffered values never exceeds the target
window size, and a call that reaches the target performs sum emission,
buffer reset and counter increment in the same atomic step (the single
critical section is one step of this model). -/
theorem buffered_count_invariant (W : ℕ) (ps : List ℚ) :
    (∀ n, (runReadings (PowerSumProcessor.init W) (ps.take n)).1.power_readings.length ≤ W ∧
          (runReadings (PowerSumProcessor.init W) (ps.take n)).1.current_count ≤ W) ∧
    (∀ (s : PState) (p : ℚ), s.target_count ≤ s.current_count + 1 →
      (add_reading s p).1.closed = true ∧
      (add_reading s p).1.emitted = some (s.power_readings ++ [p]).sum ∧
      (add_reading s p).2.power_readings = [] ∧
      (add_reading s p).2.current_count = 0 ∧
      (add_reading s p).2.total_sums = s.total_sums + 1) := by
  constructor
  · intro n
    by_cases hW : 1 ≤ W
    · obtain ⟨h1, h2, h3, h4, h5, h6, h7⟩ :=
        runReadings_spec W hW (ps.take n) (PowerSumProcessor.init W) rfl rfl
          (by simpa using hW)
    --h3/h4 : counters equal (0 + len) % W
      have h3b : (runReadings (PowerSumProcessor.init W) (ps.take n)).1.current_count =
          (ps.take n).length % W := by simpa [PowerSumProcessor.init] using h3
      have h4b : (runReadings (PowerSumProcessor.init W) (ps.take n)).1.power_readings.length =
          (ps.take n).length % W := by simpa [PowerSumProcessor.init] using h4
      have hlt : (ps.take n).length % W < W := Nat.mod_lt _ (by omega)
      exact ⟨by omega, by omega⟩
    · have hW0 : W = 0 := by omega
      subst hW0
      rw [show PowerSumProcessor.init 0 = (⟨0, [], 0, 0, 0, false⟩ : PState) from rfl,
          runReadings_target_zero]
      simp
  · intro s p hclose
    simp [add_reading, if_pos hclose]

/-- Witness for C9: a two-element prefix under window size 3, and a closing
step from a state whose buffer holds two of three values. -/
theorem buffered_count_invariant_witness :
    (runReadings (PowerSumProcessor.init 3) ([100, 200, 300, 400].take 2)).1.power_readings.length ≤ 3 ∧
    (add_reading ⟨3, [10, 20], 2, 0, 0, false⟩ 30).1.closed = true ∧
    (add_reading ⟨3, [10, 20], 2, 0, 0, false⟩ 30).1.emitted =
      some (([10, 20] ++ [30] : List ℚ).sum) ∧
    (add_reading ⟨3, [10, 20], 2, 0, 0, false⟩ 30).2.power_readings = [] ∧
    (add_reading ⟨3, [10, 20], 2, 0, 0, false⟩ 30).2.total_sums = 1 := by
  obtain ⟨hA, hB⟩ := buffered_count_invariant 3 [100, 200, 300, 400]
  obtain ⟨hB1, hB2, hB3, hB4, hB5⟩ :=
    hB ⟨3, [10, 20], 2, 0, 0, false⟩ 30 (by decide)
  exact ⟨(hA 2).1, hB1, hB2, hB3, hB5.trans (by decide)⟩

/-- C10: with target window size 0 — which the configuration path yields
when the expected device count is 0 and `--sum-interval` is unset
(`src/server/main.cpp` lines 71-73) — every single `add_reading` call
immediately closes a window containing exactly that one reading: the
emitted sum is the reading itself and the total-windows counter increments
on every call. -/
theorem window_size_zero_every_call_closes (ps : List ℚ) :
    resolve_sum_interval 0 0 = 0 ∧
    runReadings (PowerSumProcessor.init 0) ps = (⟨0, [], 0, ps.length, 0, false⟩, ps) ∧
    (∀ (t : ℕ) (p : ℚ), add_reading ⟨0, [], 0, t, 0, false⟩ p =
      (⟨true, false, some p⟩, ⟨0, [], 0, t + 1, 0, false⟩)) := by
  refine ⟨rfl, ?_, ?_⟩
  · have h := runReadings_target_zero ps 0 0 false
    simpa [PowerSumProcessor.init] using h
  · intro t p
    simp only [add_reading]
    rw [if_pos (show (⟨0, [], 0, t, 0, false⟩ : PState).target_count ≤
        (⟨0, [], 0, t, 0, false⟩ : PState).current_count + 1 from Nat.zero_le _)]
    simp

theorem byteAt_lt (data : List ℕ) (i : ℕ) (h : i < data.length) :
    byteAt data i = .ok (data.getD i 0) := by
  unfold byteAt
  rw [List.get?_eq_get h, List.getD_eq_get?, List.get?_eq_get h]
  rfl

/-- C3 is a code bug in `src/server/server.cpp`: the decode's size guard is
`data.size() < 11`, not `< 13`, yet the same function parses power and
frequency from bytes 11 and 12 (its own layout comment says 13 bytes).
An 11- or 12-byte plaintext is accepted by the guard and the parse then
reads past the end of the vector instead of failing with the size error;
the `src/main.cpp` variant guards with `< 13` as the spec states. -/
theorem parse_size_check_bug :
    parse_binary_reading_server (List.replicate 11 0) = .error .oobRead ∧
    parse_binary_reading_server (List.replicate 12 0) = .error .oobRead ∧
    parse_binary_reading_server (List.replicate 10 0) = .error .sizeError ∧
    parse_binary_reading_main (List.replicate 11 0) = .error .sizeError ∧
    parse_binary_reading_main (List.replicate 12 0) = .error .sizeError ∧
    (∃ r, parse_binary_reading_main (List.replicate 13 0) = .ok r) := by
  exact ⟨rfl, rfl, rfl, rfl, rfl, ⟨_, rfl⟩⟩

/-- C4 counterexample: a 13-byte record whose raw current field is 100
decodes in `src/server/server.cpp` to current 1 (raw ÷ 100, "centiamps"
per the source comment), not raw ÷ 10 = 10 as the claim states for every
successfully decoded record. -/
theorem current_scaling_counterexample :
    parse_binary_reading_server [0, 0, 0, 0, 0, 0, 0, 0, 0, 100, 0, 0, 0] =
      .ok { device_id := "", timestamp := 0, voltage := 0, current := 1,
            power := 0, frequency := 0 } ∧
    (1 : ℚ) ≠ 100 / 10 := by
  constructor
  · unfold parse_binary_reading_server
    rw [if_neg (by decide : ¬ ([0, 0, 0, 0, 0, 0, 0, 0, 0, 100, 0, 0, 0] : List ℕ).length < 11)]
    rw [byteAt_lt _ 0 (by decide), byteAt_lt _ 1 (by decide), byteAt_lt _ 2 (by decide),
        byteAt_lt _ 3 (by decide), byteAt_lt _ 4 (by decide), byteAt_lt _ 5 (by decide),
        byteAt_lt _ 6 (by decide), byteAt_lt _ 7 (by decide), byteAt_lt _ 8 (by decide),
        byteAt_lt _ 9 (by decide), byteAt_lt _ 10 (by decide), byteAt_lt _ 11 (by decide),
        byteAt_lt _ 12 (by decide)]
    norm_num [List.getD_cons_succ, List.getD_cons_zero, bind, Except.bind]
  · norm_num

/-- C4 corrected: the ÷ 10 scaling of the raw current field holds in the
`src/main.cpp` variant; the `src/server/server.cpp` variant scales the same
field by ÷ 100.  Both decode the unsigned 16-bit big-endian integer at
offset 8. -/
theorem current_scaling_by_variant (data : List ℕ) (h : 13 ≤ data.length) :
    ∃ r rs : MeterReading,
      parse_binary_reading_main data = .ok r ∧
      parse_binary_reading_server data = .ok rs ∧
      r.current = ((data.getD 8 0 * 256 + data.getD 9 0 : ℕ) : ℚ) / 10 ∧
      rs.current = ((data.getD 8 0 * 256 + data.getD 9 0 : ℕ) : ℚ) / 100 := by
  unfold parse_binary_reading_main parse_binary_reading_server
  rw [if_neg (by omega : ¬ data.length < 13), if_neg (by omega : ¬ data.length < 11)]
  rw [byteAt_lt data 0 (by omega), byteAt_lt data 1 (by omega),
      byteAt_lt data 2 (by omega), byteAt_lt data 3 (by omega),
      byteAt_lt data 4 (by omega), byteAt_lt data 5 (by omega),
      byteAt_lt data 6 (by omega), byteAt_lt data 7 (by omega),
      byteAt_lt data 8 (by omega), byteAt_lt data 9 (by omega),
      byteAt_lt data 10 (by omega), byteAt_lt data 11 (by omega),
      byteAt_lt data 12 (by omega)]
  exact ⟨_, _, rfl, rfl, rfl, rfl⟩

/-- Witness for C4's corrected statement at a concrete 13-byte record. -/
theorem current_scaling_by_variant_witness :
    ∃ r rs : MeterReading,
      parse_binary_reading_main [0, 0, 0, 0, 0, 0, 0, 0, 0, 100, 0, 0, 0] = .ok r ∧
      parse_binary_reading_server [0, 0, 0, 0, 0, 0, 0, 0, 0, 100, 0, 0, 0] = .ok rs ∧
      r.current = ((([0, 0, 0, 0, 0, 0, 0, 0, 0, 100, 0, 0, 0] : List ℕ).getD 8 0 * 256 +
        ([0, 0, 0, 0, 0, 0, 0, 0, 0, 100, 0, 0, 0] : List ℕ).getD 9 0 : ℕ) : ℚ) / 10 ∧
      rs.current = ((([0, 0, 0, 0, 0, 0, 0, 0, 0, 100, 0, 0, 0] : List ℕ).getD 8 0 * 256 +
        ([0, 0, 0, 0, 0, 0, 0, 0, 0, 100, 0, 0, 0] : List ℕ).getD 9 0 : ℕ) : ℚ) / 100 :=
  current_scaling_by_variant [0, 0, 0, 0, 0, 0, 0, 0, 0, 100, 0, 0, 0] (by decide)

/-- C6 is a code bug in `src/server/server.cpp`: `std::stoull` on the
header's length field is called outside the `try` block (line 140), so a
header such as `meter_1:abc` throws `std::invalid_argument` out of
`handle_client` into the worker thread instead of being logged and
contained.  Decrypt and decode failures, by contrast, are caught and
contained as the claim says. -/
theorem header_length_exception_bug :
    handle_client_message "meter_1:abc" false (.ok []) = .uncaughtException ∧
    handle_client_message "meter_1:16" false (.error "bad padding") = .droppedLogged ∧
    handle_client_message "meter_1:16" false (.ok (List.replicate 10 0)) = .droppedLogged ∧
    handle_client_message "meter_1:16" false (.ok (List.replicate 13 0)) = .processedOk := by
  exact ⟨rfl, rfl, rfl, rfl⟩

theorem findColon_eq_none : ∀ (l : List Char), ¬ (':' ∈ l) → findColon l = none := by
  intro l
  induction l with
  | nil => intro h; rfl
  | cons c cs ih =>
    intro h
    unfold findColon
    rw [if_neg (fun hc => h (by rw [hc]; exact List.mem_cons_self _ _))]
    rw [ih (fun hm => h (List.mem_cons_of_mem c hm))]

/-- C7 counterexample: in `src/server/server.cpp` a header line without a
colon hits `continue` (line 137), so the handler skips that line and keeps
the connection open — it does not close the connection as claimed. -/
theorem nocolon_header_counterexample :
    handle_client_message "nocolon" false (.ok []) = .skipMessage ∧
    HandlerStep.skipMessage ≠ HandlerStep.closeConnection := by
  exact ⟨rfl, by decide⟩

/-- C7 corrected: an empty header line closes the connection; a nonempty
header without a colon makes the handler skip that line and continue the
loop (connection kept open).  Neither outcome is the uncaught-exception
one, so the handler and the aggregator do not crash. -/
theorem malformed_header_behaviour (header : String) (short_read : Bool)
    (decrypted : Except String (List ℕ)) :
    handle_client_message "" short_read decrypted = .closeConnection ∧
    (header ≠ "" → ¬ (':' ∈ header.toList) →
      handle_client_message header short_read decrypted = .skipMessage ∧
      handle_client_message header short_read decrypted ≠ .uncaughtException) := by
  refine ⟨rfl, ?_⟩
  intro hne hnc
  have hskip : handle_client_message header short_read decrypted = .skipMessage := by
    unfold handle_client_message
    rw [if_neg hne, findColon_eq_none header.toList hnc]
  exact ⟨hskip, by rw [hskip]; decide⟩

/-- Witness for C7's corrected statement at the spec's `"nocolon"` input. -/
theorem malformed_header_behaviour_witness :
    handle_client_message "" false (.ok []) = .closeConnection ∧
    handle_client_message "nocolon" false (.ok []) = .skipMessage := by
  obtain ⟨h1, h2⟩ := malformed_header_behaviour "nocolon" false (.ok [])
  exact ⟨h1, (h2 (by decide) (by decide)).1⟩

theorem lookupKey_cons (d : String) (k : List ℕ) (c : List (String × List ℕ))
    (dev : String) :
    lookupKey ((d, k) :: c) dev = if d = dev then some k else lookupKey c dev := rfl

theorem runKeyRequests_at_most_once (kdf : String → String → ℕ → ℕ → List ℕ)
    (dev : String) :
    ∀ (ids : List String) (c : List (String × List ℕ)),
    (lookupKey c dev ≠ none → derivations_for dev (runKeyRequests kdf c ids).2 = 0) ∧
    derivations_for dev (runKeyRequests kdf c ids).2 ≤ 1 := by
  intro ids
  induction ids with
  | nil =>
    intro c
    exact ⟨fun _ => rfl, by rw [show derivations_for dev (runKeyRequests kdf c []).2 = 0 from rfl]; omega⟩
  | cons d ds ih =>
    intro c
    by_cases hl : lookupKey c d = none
    · by_cases hd : d = dev
      · subst hd
        -- miss for `dev` itself: this call derives, afterwards `dev` is cached
        have hstep : get_or_generate_key kdf c d =
            (derivedKey kdf d, (d, derivedKey kdf d) :: c, true) := by
          unfold get_or_generate_key
          rw [hl]
        constructor
        · intro hcontra
          exact absurd hl (by simpa using hcontra)
        · obtain ⟨ih1, ih2⟩ := ih ((d, derivedKey kdf d) :: c)
          have hzero : derivations_for d (runKeyRequests kdf ((d, derivedKey kdf d) :: c) ds).2 = 0 := by
            apply ih1
            rw [lookupKey_cons, if_pos rfl]
            simp
          simp only [runKeyRequests, hstep, derivations_for, List.filter]
          simp only [derivations_for] at hzero
          simp [hzero]
      · -- miss for a different device: entry not counted, lookup for dev unchanged
        have hstep : get_or_generate_key kdf c d =
            (derivedKey kdf d, (d, derivedKey kdf d) :: c, true) := by
          unfold get_or_generate_key
          rw [hl]
        have hpres : lookupKey ((d, derivedKey kdf d) :: c) dev = lookupKey c dev := by
          rw [lookupKey_cons, if_neg hd]
        obtain ⟨ih1, ih2⟩ := ih ((d, derivedKey kdf d) :: c)
        constructor
        · intro hne
          have h0 := ih1 (by rw [hpres]; exact hne)
          simp only [runKeyRequests, hstep, derivations_for, List.filter] at *
          simp only [show (d == dev) = false from by simpa using hd]
          simpa using h0
        · simp only [runKeyRequests, hstep, derivations_for, List.filter] at *
          simp only [show (d == dev) = false from by simpa using hd]
          simpa using ih2
    · -- cache hit for `d`: no derivation logged, cache unchanged
      obtain ⟨k, hk⟩ := Option.ne_none_iff_exists.mp hl
      have hstep : get_or_generate_key kdf c d = (k, c, false) := by
        unfold get_or_generate_key
        rw [← hk]
      obtain ⟨ih1, ih2⟩ := ih c
      constructor
      · intro hne
        have h0 := ih1 hne
        simp only [runKeyRequests, hstep, derivations_for, List.filter] at *
        simp only [Bool.and_false]
        simpa using h0
      · simp only [runKeyRequests, hstep, derivations_for, List.filter] at *
        simp only [Bool.and_false]
        simpa using ih2

/-- C8: `get_or_generate_key` always returns the PBKDF2-HMAC-SHA-256 key
derived with 100,000 iterations and 32-byte output from password
`"smart_meter_" ++ device_id` and salt `device_id` right-padded with '0'
to exactly 16 bytes (truncated when longer); a cache miss derives and
caches exactly that key, a hit returns the cached key without deriving,
an immediately repeated call returns the bit-identical key without
deriving, on a consistent cache the returned key is always the derived
one, and over any request sequence the derivation is invoked at most once
per identifier. -/
theorem get_or_create_key_spec (kdf : String → String → ℕ → ℕ → List ℕ)
    (c : List (String × List ℕ)) (device_id : String) :
    (saltOf device_id).length = 16 ∧
    (lookupKey c device_id = none →
      get_or_generate_key kdf c device_id =
        (derivedKey kdf device_id, (device_id, derivedKey kdf device_id) :: c, true)) ∧
    (∀ k, lookupKey c device_id = some k →
      get_or_generate_key kdf c device_id = (k, c, false)) ∧
    ((get_or_generate_key kdf (get_or_generate_key kdf c device_id).2.1 device_id).1 =
        (get_or_generate_key kdf c device_id).1 ∧
      (get_or_generate_key kdf (get_or_generate_key kdf c device_id).2.1 device_id).2.2 = false ∧
      (get_or_generate_key kdf (get_or_generate_key kdf c device_id).2.1 device_id).2.1 =
        (get_or_generate_key kdf c device_id).2.1) ∧
    (cacheConsistent kdf c →
      (get_or_generate_key kdf c device_id).1 = derivedKey kdf device_id ∧
      cacheConsistent kdf (get_or_generate_key kdf c device_id).2.1) ∧
    (∀ ids, derivations_for device_id (runKeyRequests kdf c ids).2 ≤ 1) := by
  refine ⟨?_, ?_, ?_, ?_, ?_, ?_⟩
  · simp only [saltOf, String.length]
    by_cases hl : 16 ≤ device_id.toList.length
    · rw [if_pos hl, List.length_take]
      omega
    · rw [if_neg hl, List.length_append, List.length_replicate]
      omega
  · intro hmiss
    unfold get_or_generate_key
    rw [hmiss]
  · intro k hhit
    unfold get_or_generate_key
    rw [hhit]
  · cases hl : lookupKey c device_id with
    | some k =>
      have hstep : get_or_generate_key kdf c device_id = (k, c, false) := by
        unfold get_or_generate_key; rw [hl]
      rw [hstep]
      simp only
      rw [hstep]
      exact ⟨rfl, rfl, rfl⟩
    | none =>
      have hstep : get_or_generate_key kdf c device_id =
          (derivedKey kdf device_id, (device_id, derivedKey kdf device_id) :: c, true) := by
        unfold get_or_generate_key; rw [hl]
      have hstep2 : get_or_generate_key kdf ((device_id, derivedKey kdf device_id) :: c) device_id =
          (derivedKey kdf device_id, (device_id, derivedKey kdf device_id) :: c, false) := by
        unfold get_or_generate_key
        rw [lookupKey_cons, if_pos rfl]
      rw [hstep]
      simp only
      rw [hstep2]
      exact ⟨rfl, rfl, rfl⟩
  · intro hcons
    cases hl : lookupKey c device_id with
    | some k =>
      have hstep : get_or_generate_key kdf c device_id = (k, c, false) := by
        unfold get_or_generate_key; rw [hl]
      rw [hstep]
      constructor
      · -- the cached key was derived by this derivation, by consistency
        have : ∃ p, p ∈ c ∧ p.1 = device_id ∧ p.2 = k := by
          clear hstep hcons
          induction c with
          | nil => simp [lookupKey] at hl
          | cons hd tl ih =>
            obtain ⟨h1, h2⟩ := hd
            rw [lookupKey_cons] at hl
            by_cases he : h1 = device_id
            · rw [if_pos he] at hl
              exact ⟨(h1, h2), List.mem_cons_self _ _, he, by simpa using hl⟩
            · rw [if_neg he] at hl
              obtain ⟨p, hp1, hp2, hp3⟩ := ih hl
              exact ⟨p, List.mem_cons_of_mem _ hp1, hp2, hp3⟩
        obtain ⟨p, hp1, hp2, hp3⟩ := this
        have := hcons p hp1
        simp only
        rw [← hp3, this, hp2]
      · simpa [hstep] using hcons
    | none =>
      have hstep : get_or_generate_key kdf c device_id =
          (derivedKey kdf device_id, (device_id, derivedKey kdf device_id) :: c, true) := by
        unfold get_or_generate_key; rw [hl]
      rw [hstep]
      refine ⟨rfl, ?_⟩
      intro p hp
      rcases List.mem_cons.mp hp with h1 | h2
      · rw [h1]
      · exact hcons p h2
  · intro ids
    exact (runKeyRequests_at_most_once kdf device_id ids c).2

/-- Witness for C8 at device id `"meter_1"` on an empty cache. -/
theorem get_or_create_key_spec_witness :
    (saltOf "meter_1").length = 16 ∧
    get_or_generate_key kdfTest [] "meter_1" =
      (derivedKey kdfTest "meter_1", [("meter_1", derivedKey kdfTest "meter_1")], true) ∧
    (get_or_generate_key kdfTest (get_or_generate_key kdfTest [] "meter_1").2.1 "meter_1").1 =
      (get_or_generate_key kdfTest [] "meter_1").1 ∧
    (get_or_generate_key kdfTest [] "meter_1").1 = derivedKey kdfTest "meter_1" ∧
    derivations_for "meter_1" (runKeyRequests kdfTest [] ["meter_1", "meter_1", "meter_2"]).2 ≤ 1 := by
  obtain ⟨h1, h2, h3, h4, h5, h6⟩ := get_or_create_key_spec kdfTest [] "meter_1"
  exact ⟨h1, h2 rfl, h4.1, (h5 (by intro p hp; simp at hp)).1,
    h6 ["meter_1", "meter_1", "meter_2"]⟩

theorem finalize_benchmark_noop (x : ℚ) (s : SrvState) (h : s.finalized = true) :
    finalize_benchmark x s = s := by
  unfold finalize_benchmark
  rw [h]
  rfl

theorem finalize_benchmark_sets (x : ℚ) (s : SrvState) (h1 : s.finalized = false)
    (h2 : s.done = false) :
    (finalize_benchmark x s).finalized = true ∧ (finalize_benchmark x s).done = true := by
  unfold finalize_benchmark
  rw [h1]
  by_cases hm : s.metrics_file = ""
  · simp [h2, hm]
  · simp [h2, hm]

theorem finalize_benchmark_foldl_noop :
    ∀ (xs : List ℚ) (t : SrvState), t.finalized = true →
    xs.foldl (fun acc x => finalize_benchmark x acc) t = t := by
  intro xs
  induction xs with
  | nil => intro t ht; rfl
  | cons x xs ih =>
    intro t ht
    simp only [List.foldl_cons]
    rw [finalize_benchmark_noop x t ht]
    exact ih t ht

/-- C1: from a not-yet-finalized running state, the first
`finalize_benchmark` call sets both gates, computes the elapsed-based
throughput and appends exactly one metrics record to the sink; any call on
an already-finalized state — whichever path it arrives from — is the
identity, so any number of further calls changes nothing. -/
theorem finalize_benchmark_exactly_once (seconds : ℚ) (s : SrvState)
    (h1 : s.finalized = false) (h2 : s.done = false) (h3 : ¬ s.metrics_file = "") :
    (finalize_benchmark seconds s).finalized = true ∧
    (finalize_benchmark seconds s).done = true ∧
    (finalize_benchmark seconds s).sink = s.sink ++
      [{ device_count := s.expected_devices
         thread_count := s.thread_count
         benchmark_target := s.benchmark_target
         benchmark_sum_target := s.benchmark_sum_target
         total_readings := s.total_readings
         total_sums := s.proc.total_sums
         seconds := seconds
         throughput_rps := if 0 < seconds then (s.total_readings : ℚ) / seconds else 0 }] ∧
    (finalize_benchmark seconds s).total_readings = s.total_readings ∧
    (finalize_benchmark seconds s).proc = s.proc ∧
    (∀ (s2 : SrvState), s2.finalized = true → ∀ x, finalize_benchmark x s2 = s2) ∧
    (∀ xs : List ℚ,
      xs.foldl (fun acc x => finalize_benchmark x acc) (finalize_benchmark seconds s) =
        finalize_benchmark seconds s) := by
  refine ⟨(finalize_benchmark_sets seconds s h1 h2).1,
    (finalize_benchmark_sets seconds s h1 h2).2, ?_, ?_, ?_, ?_, ?_⟩
  · unfold finalize_benchmark
    rw [h1]
    simp [h2, h3]
  · unfold finalize_benchmark
    rw [h1]
    simp [h2, h3]
  · unfold finalize_benchmark
    rw [h1]
    simp [h2, h3]
  · intro s2 hf x
    exact finalize_benchmark_noop x s2 hf
  · intro xs
    exact finalize_benchmark_foldl_noop xs _ (finalize_benchmark_sets seconds s h1 h2).1

/-- Witness for C1 on a concrete fresh server configuration. -/
theorem finalize_benchmark_exactly_once_witness :
    (finalize_benchmark 2 (SmartGridServer.init 5 10 100 0 "m.csv" 4)).finalized = true ∧
    (finalize_benchmark 2 (SmartGridServer.init 5 10 100 0 "m.csv" 4)).done = true ∧
    (finalize_benchmark 2 (SmartGridServer.init 5 10 100 0 "m.csv" 4)).sink.length = 1 ∧
    (∀ xs : List ℚ,
      xs.foldl (fun acc x => finalize_benchmark x acc)
        (finalize_benchmark 2 (SmartGridServer.init 5 10 100 0 "m.csv" 4)) =
        finalize_benchmark 2 (SmartGridServer.init 5 10 100 0 "m.csv" 4)) := by
  obtain ⟨w1, w2, w3, w4, w5, w6, w7⟩ :=
    finalize_benchmark_exactly_once 2 (SmartGridServer.init 5 10 100 0 "m.csv" 4)
      rfl rfl (by simp [SmartGridServer.init])
  refine ⟨w1, w2, ?_, w7⟩
  rw [w3]
  simp [SmartGridServer.init]

/-- C5 counterexample: configure both thresholds (reading-count 1,
window-count 5, window size 10) and process one reading at time 1: the
total-readings counter reaches the reading-count threshold, yet nothing is
finalized — the legacy reading branch requires `benchmark_sum_target == 0`
(`src/server/server.cpp` line 243), so the reading-count path is not
independent of the window-count configuration. -/
theorem reading_threshold_ignored_counterexample :
    (SmartGridServer.init 5 10 1 5 "m.csv" 0).benchmark_target = 1 ∧
    (SmartGridServer.init 5 10 1 5 "m.csv" 0).benchmark_sum_target = 5 ∧
    (process_reading 1 readingTest (SmartGridServer.init 5 10 1 5 "m.csv" 0)).total_readings = 1 ∧
    (process_reading 1 readingTest (SmartGridServer.init 5 10 1 5 "m.csv" 0)).done = false ∧
    (process_reading 1 readingTest (SmartGridServer.init 5 10 1 5 "m.csv" 0)).finalized = false ∧
    (process_reading 1 readingTest (SmartGridServer.init 5 10 1 5 "m.csv" 0)).sink = [] := by
  exact ⟨rfl, rfl, rfl, rfl, rfl, rfl⟩

theorem processCore_threshold (now : ℚ) (r : MeterReading) (t : SrvState)
    (hbt : 0 < t.benchmark_target) (hbst : t.benchmark_sum_target = 0)
    (hdone : t.done = false) (hfin : t.finalized = false)
    (hreach : t.benchmark_target ≤ t.total_readings + 1) :
    (processCore now r t).done = true ∧ (processCore now r t).finalized = true := by
  cases hfc : (add_reading t.proc r.power).1.fire_callback
  case false =>
    simp only [processCore, hfc, Bool.false_eq_true, if_false]
    constructor
    · split
      next hC =>
        refine (finalize_benchmark_sets _ _ ?_ ?_).2
        · exact hfin
        · exact hdone
      next hC => exact absurd ⟨hbt, hbst, hreach, hdone⟩ hC
    · split
      next hC =>
        refine (finalize_benchmark_sets _ _ ?_ ?_).1
        · exact hfin
        · exact hdone
      next hC => exact absurd ⟨hbt, hbst, hreach, hdone⟩ hC
  case true =>
    simp only [processCore, hfc, if_true]
    have hset : (finalize_benchmark (now - t.first_read_time)
        { t with proc := (add_reading t.proc r.power).2 }).done = true ∧
        (finalize_benchmark (now - t.first_read_time)
          { t with proc := (add_reading t.proc r.power).2 }).finalized = true := by
      refine ⟨(finalize_benchmark_sets _ _ ?_ ?_).2, (finalize_benchmark_sets _ _ ?_ ?_).1⟩ <;>
        first
        | exact hfin
        | exact hdone
    constructor
    · split
      next hC =>
        have hcontra := hC.2.2.2
        rw [hset.1] at hcontra
        exact Bool.noConfusion hcontra
      next hC => exact hset.1
    · split
      next hC =>
        have hcontra := hC.2.2.2
        rw [hset.1] at hcontra
        exact Bool.noConfusion hcontra
      next hC => exact hset.2

theorem processCore_no_sum_target (now : ℚ) (r : MeterReading) (t : SrvState)
    (hbst : t.benchmark_sum_target ≠ 0)
    (hfc : (add_reading t.proc r.power).1.fire_callback = false) :
    (processCore now r t).done = t.done ∧
    (processCore now r t).finalized = t.finalized ∧
    (processCore now r t).sink = t.sink := by
  simp only [processCore, hfc, Bool.false_eq_true, if_false]
  refine ⟨?_, ?_, ?_⟩ <;>
  · split
    next hC => exact absurd hC.2.1 hbst
    next hC => rfl

/-- C5 corrected: when a reading-count threshold is configured, reaching it
triggers finalization only if no window-count threshold is configured
(`benchmark_sum_target = 0`); with a window-count threshold also set, the
reading-count branch is disabled and a reading that fires no window
callback leaves `done`, `finalized` and the sink untouched. -/
theorem reading_threshold_gated_by_sum_target (s : SrvState) (now : ℚ) (r : MeterReading) :
    (0 < s.benchmark_target → s.benchmark_sum_target = 0 → s.done = false →
     s.finalized = false → s.benchmark_target ≤ s.total_readings + 1 →
      (process_reading now r s).done = true ∧ (process_reading now r s).finalized = true) ∧
    (s.benchmark_sum_target ≠ 0 → (add_reading s.proc r.power).1.fire_callback = false →
      (process_reading now r s).done = s.done ∧
      (process_reading now r s).finalized = s.finalized ∧
      (process_reading now r s).sink = s.sink) := by
  by_cases hst : s.started = false
  · have hcore : process_reading now r s =
        processCore now r { s with started := true, first_read_time := now } := by
      unfold process_reading processCore
      rw [if_pos hst]
    constructor
    · intro hbt hbst hdone hfin hreach
      rw [hcore]
      exact processCore_threshold now r { s with started := true, first_read_time := now }
        hbt hbst hdone hfin hreach
    · intro hbst hfc
      rw [hcore]
      exact processCore_no_sum_target now r { s with started := true, first_read_time := now }
        hbst hfc
  · have hcore : process_reading now r s = processCore now r s := by
      unfold process_reading processCore
      rw [if_neg hst]
    constructor
    · intro hbt hbst hdone hfin hreach
      rw [hcore]
      exact processCore_threshold now r s hbt hbst hdone hfin hreach
    · intro hbst hfc
      rw [hcore]
      exact processCore_no_sum_target now r s hbst hfc

/-- Witness for C5's corrected statement: with sum target 0 the reading
threshold finalizes; with sum target 5 configured as well, the same
reading leaves the server unfinalised. -/
theorem reading_threshold_gated_witness :
    ((process_reading 1 readingTest (SmartGridServer.init 5 10 1 0 "m.csv" 0)).done = true ∧
     (process_reading 1 readingTest (SmartGridServer.init 5 10 1 0 "m.csv" 0)).finalized = true) ∧
    ((process_reading 1 readingTest (SmartGridServer.init 5 10 1 5 "m.csv" 0)).done =
       (SmartGridServer.init 5 10 1 5 "m.csv" 0).done ∧
     (process_reading 1 readingTest (SmartGridServer.init 5 10 1 5 "m.csv" 0)).finalized =
       (SmartGridServer.init 5 10 1 5 "m.csv" 0).finalized ∧
     (process_reading 1 readingTest (SmartGridServer.init 5 10 1 5 "m.csv" 0)).sink =
       (SmartGridServer.init 5 10 1 5 "m.csv" 0).sink) := by
  constructor
  · exact (reading_threshold_gated_by_sum_target (SmartGridServer.init 5 10 1 0 "m.csv" 0) 1
      readingTest).1 (by decide) rfl rfl rfl (by decide)
  · exact (reading_threshold_gated_by_sum_target (SmartGridServer.init 5 10 1 5 "m.csv" 0) 1
      readingTest).2 (by decide) (by decide)
